import Mathlib

/-!
Shallow embedding of the `mock_wrangling` repository's filter-resolution and
cross-shard join core, together with proofs about its behaviour.

Python sequences become `List`s, numpy float columns become `ℚ`-valued lists
(with an explicit NaN constructor where NaN handling matters), hdf5 groups
become column maps, and Python exceptions become `Except String` or, for the
interpreter-level crash in `find_sed_files_with_filter`, `Option`.
-/

namespace MockWrangling

/-- Value of a floating-point cell: either NaN or a rational number.
Used where the code's NaN handling (`np.isnan`) is the point of a claim. -/
inductive FVal where
  | nan : FVal
  | val : ℚ → FVal
deriving DecidableEq

/-- `np.isnan` on an `FVal`. -/
def FVal.isnan : FVal → Bool
  | .nan => true
  | .val _ => false

/-- Model of `np.concatenate` on a list of 1-d arrays: numpy raises
`ValueError: need at least one array to concatenate` on an empty input list,
otherwise concatenates. -/
def np_concatenate {α : Type} (arrays : List (List α)) : Except String (List α) :=
  if arrays.isEmpty then .error "need at least one array to concatenate"
  else .ok arrays.join

/-- Model of `np.hstack` on a list of 2-d arrays that all have `nrows` rows:
row `f` of the result is the concatenation of the `f`-th rows of the inputs.
Like `np.concatenate`, numpy raises on an empty input list. -/
def np_hstack {α : Type} (mats : List (List (List α))) (nrows : ℕ) :
    Except String (List (List α)) :=
  if mats.isEmpty then .error "need at least one array to concatenate"
  else .ok ((List.range nrows).map (fun f => (mats.map (fun m => m.getD f [])).join))

instance {ε α : Type} [DecidableEq ε] [DecidableEq α] : DecidableEq (Except ε α) :=
  fun x y =>
    match x, y with
    | .error a, .error b =>
        if h : a = b then .isTrue (h ▸ rfl) else .isFalse (fun hc => h (by injection hc))
    | .error _, .ok _ => .isFalse (fun hc => Except.noConfusion hc)
    | .ok _, .error _ => .isFalse (fun hc => Except.noConfusion hc)
    | .ok a, .ok b =>
        if h : a = b then .isTrue (h ▸ rfl) else .isFalse (fun hc => h (by injection hc))

/-- The error-propagating accumulation loop shared by the Python functions
that iterate over files or filters and fail on the first raised exception. -/
def mapMExcept {α β : Type} (g : α → Except String β) : List α → Except String (List β)
  | [] => .ok []
  | x :: xs =>
    match g x with
    | .error e => .error e
    | .ok y =>
      match mapMExcept g xs with
      | .error e => .error e
      | .ok ys => .ok (y :: ys)

/-- Tail-worker for `dedupFirst`: drops elements already seen. -/
def dedupFirstAux {α : Type} [DecidableEq α] (seen : List α) : List α → List α
  | [] => []
  | k :: ks => if k ∈ seen then dedupFirstAux seen ks else k :: dedupFirstAux (k :: seen) ks

/-- First-occurrence deduplication: each element is kept at the position of its
first occurrence, later duplicates are removed.  This is the
specification-side characterisation of both `np.unique` + `argsort`
(in `scrape_available_filters`) and Python `dict` key order
(in `assign_filters_to_cmds`). -/
def dedupFirst {α : Type} [DecidableEq α] (l : List α) : List α :=
  dedupFirstAux [] l

/-- Filter-style recursion equivalent to `dedupFirst`, convenient for proofs. -/
def dedupF {α : Type} [DecidableEq α] : List α → List α
  | [] => []
  | k :: ks => k :: dedupF (ks.filter (fun x => x ≠ k))
termination_by l => l.length
decreasing_by
  simp only [List.length_cons]
  exact Nat.lt_succ_of_le (List.length_filter_le _ _)

/-! ### `mock_file_types.py` / `read_filters.py`: SED shards and filter extraction -/

/-- One SED hdf5 shard: its `filters` column, its `id_galaxy_sky` column and
the `SED/ap_dust/total` and `SED/ab_dust/total` 2-d arrays (one row per
filter, one column per galaxy). -/
structure SEDShard where
  name : String
  filters : List String
  galaxy_sky_ids : List Int
  ap_dust_total : List (List ℚ)
  ab_dust_total : List (List ℚ)
deriving DecidableEq

/-- `np.sort` of a shard list by file name (ascending). -/
def sortShardsByName (shards : List SEDShard) : List SEDShard :=
  List.insertionSort (fun a b => a.name ≤ b.name) shards

/-- `_select_appropriate_sed_files`: representative files sorted by
`np.sort(...)` and then reversed by `[::-1]`. -/
def select_appropriate_sed_files (shards : List SEDShard) : List SEDShard :=
  (sortShardsByName shards).reverse

/-- The `np.unique(..., return_index=True)` + `argsort` pipeline from
`scrape_available_filters`: `np.unique` yields the lexicographically sorted
distinct values together with the index of each value's first occurrence, and
indexing by `np.argsort(indicies)` reorders them by ascending first-occurrence
index. -/
def uniqueInOrder (all_filters : List String) : List String :=
  let unique_filters := List.insertionSort (fun a b : String => a ≤ b) all_filters.dedup
  let indexed := unique_filters.map (fun v => (v, all_filters.indexOf v))
  (List.insertionSort (fun p q : String × ℕ => p.2 ≤ q.2) indexed).map Prod.fst

/-- `scrape_available_filters`: concatenate the `filters` columns of the
representative shards and deduplicate.  `np.concatenate` raises on an empty
file list, hence the `Except`. -/
def scrape_available_filters (shards : List SEDShard) : Except String (List String) := do
  let files := select_appropriate_sed_files shards
  let all_filters ← np_concatenate (files.map (fun f => f.filters))
  pure (uniqueInOrder all_filters)

/-- `correct_file.split(".hdf5")[0][:-2] + "??.hdf5"`: derive the shard-group
wildcard pattern from a member file name. -/
def sed_group_pattern (file_name : String) : String :=
  ((file_name.splitOn ".hdf5").headD "").dropRight 2 ++ "??.hdf5"

/-- `find_sed_files_with_filter`: scan the representative shards in order and
return the group pattern of the first one whose `filters` column contains the
requested filter.  When no shard contains it, the Python code falls through
the loop with the local variable `correct_file` never assigned and crashes
with `UnboundLocalError`; that abnormal termination is modelled as `none`. -/
def find_sed_files_with_filter (sed_files : List SEDShard) (filter_name : String) :
    Option String :=
  match sed_files.find? (fun sed => filter_name ∈ sed.filters) with
  | some sed => some (sed_group_pattern sed.name)
  | none => none

/-- `SED.get_filter_data`: the row of `SED/{ap,ab}_dust/total` at the first
position where the shard's `filters` column equals `filter_name`. -/
def get_filter_data (sed : SEDShard) (filter_name : String) (mag_type : String) :
    Except String (List ℚ) :=
  if mag_type ≠ "Apparent" ∧ mag_type ≠ "Absolute" then
    .error "mag_type must either be Apparent or Absolute"
  else if filter_name ∉ sed.filters then
    .error (sed.name ++ " has no filter called " ++ filter_name ++ ".")
  else
    let table := if mag_type = "Apparent" then sed.ap_dust_total else sed.ab_dust_total
    .ok (table.getD (sed.filters.indexOf filter_name) [])

/-- `SED.get_filters_data`: one magnitude row per requested filter. -/
def get_filters_data (sed : SEDShard) (filter_names : List String) (mag_type : String) :
    Except String (List (List ℚ)) :=
  mapMExcept (fun fn => get_filter_data sed fn mag_type) filter_names

/-- `get_mag_data`: expand the shard-group pattern to its (sorted) member
shards, read ids and apparent/absolute magnitudes per member, and concatenate
along the galaxy axis (`np.concatenate` for ids, `np.hstack` for the 2-d
magnitude arrays). -/
def get_mag_data (shard_group : List SEDShard) (filter_names : List String) :
    Except String (List Int × List (List ℚ) × List (List ℚ)) := do
  let files := sortShardsByName shard_group
  let chunks ← mapMExcept (fun sed => do
    let ap ← get_filters_data sed filter_names "Apparent"
    let ab ← get_filters_data sed filter_names "Absolute"
    pure (sed.galaxy_sky_ids, ap, ab)) files
  let ids ← np_concatenate (chunks.map (fun c => c.1))
  let ap ← np_hstack (chunks.map (fun c => c.2.1)) filter_names.length
  let ab ← np_hstack (chunks.map (fun c => c.2.2)) filter_names.length
  pure (ids, ap, ab)

/-- One step of the grouping loop in `assign_filters_to_cmds`: Python's
`if key not in grouped: grouped[key] = []` followed by
`grouped[key].append(filter_item)`, on an insertion-ordered association
list (the model of a Python `dict`). -/
def addPair {α β : Type} [DecidableEq α] (grouped : List (α × List β)) (p : α × β) :
    List (α × List β) :=
  if grouped.any (fun q => q.1 = p.1) then
    grouped.map (fun q => if q.1 = p.1 then (q.1, q.2 ++ [p.2]) else q)
  else
    grouped ++ [(p.1, [p.2])]

/-- `assign_filters_to_cmds`: group the filters by their resolved glob
command, returning `(list(grouped.keys()), list(grouped.values()))`. -/
def assign_filters_to_cmds {α β : Type} [DecidableEq α]
    (cmds : List α) (filter_list : List β) : List α × List (List β) :=
  let grouped := (cmds.zip filter_list).foldl addPair []
  (grouped.map Prod.fst, grouped.map Prod.snd)

/-- The row-dropping core of `FilterData.write_to_ascii`: build the 2-d
magnitude array from the per-filter columns, transpose it, pair each row with
its galaxy id, and keep exactly the rows whose id is not NaN.  The returned
list holds the written data rows (id plus magnitude row). -/
def write_to_ascii_rows (galaxy_ids : List FVal) (mag_columns : List (List FVal)) :
    List (FVal × List FVal) :=
  let nrows := (mag_columns.headD []).length
  let rows := (List.range nrows).map (fun i => mag_columns.map (fun col => col.getD i .nan))
  (galaxy_ids.zip rows).filter (fun p => !p.1.isnan)

/-! ### `create_mock_cutout.py`: id-based row selection and the final join -/

/-- `np.intersect1d(ids, local_ids)`: the sorted unique values present in
both arrays. -/
def overlapIds (ids localIds : List Int) : List Int :=
  List.insertionSort (fun a b => a ≤ b) ((ids.filter (fun v => v ∈ localIds)).dedup)

/-- `get_h5_group_properties`: an hdf5 group is a map from key to column.
With `ids` and `id_column` given, select the rows whose id lies in the
requested id set, in the order produced by `np.intersect1d` (ascending id);
with neither given, select all rows; `ids` without `id_column` raises.
A selection of zero rows yields the distinguished value `none`
(Python `data = None`). -/
def get_h5_group_properties (h5_group : String → List Int) (keys : List String)
    (ids : Option (List Int)) (id_column : Option String) :
    Except String (Option (List (List Int))) :=
  match ids, id_column with
  | some _, none => .error "If ids are given then id_column must also be given"
  | some idlist, some idcol =>
      let localIds := h5_group idcol
      let sub_idx := (overlapIds idlist localIds).map (fun v => localIds.indexOf v)
      if sub_idx.length = 0 then .ok none
      else .ok (some (keys.map (fun key => sub_idx.map (fun i => (h5_group key).getD i 0))))
  | none, _ =>
      let sub_idx := List.range (h5_group (keys.headD "")).length
      .ok (some (keys.map (fun key => sub_idx.map (fun i => (h5_group key).getD i 0))))

/-- The galaxy half of the accumulation loop in `make_mock_catalog`: extract
the requested properties from every mock file (via `MockLightCone`, whose id
column is `id_galaxy_sky`) and keep the chunks that are not `None`. -/
def make_mock_catalog_galaxy_chunks (files : List (String → List Int))
    (galaxy_properties : List String) (galaxy_ids : Option (List Int)) :
    Except String (List (List (List Int))) := do
  let datas ← mapMExcept (fun f =>
    get_h5_group_properties f galaxy_properties galaxy_ids (some "id_galaxy_sky")) files
  pure datas.reduceOption

/-- A whitespace-delimited text catalog as the pandas/numpy readers see it:
a header line and numeric rows. -/
structure CatalogFile where
  header : List String
  rows : List (List ℚ)
deriving DecidableEq

/-- `read_header`: the parsed header line, which must start with `ID`. -/
def read_header (file : CatalogFile) : Except String (List String) :=
  if file.header.headD "" = "ID" then .ok file.header
  else .error "File does not seem to have an ID column. Please check."

/-- `np.ndarray.astype(int)` on a float scalar: truncation toward zero. -/
def pyIntCast (q : ℚ) : Int := if 0 ≤ q then ⌊q⌋ else ⌈q⌉

/-- `ids_less_than_mag`: validate the header, locate the filter column, and
return the (integer-cast) ids of the rows whose magnitude in that column is
strictly below the limit, in row order. -/
def ids_less_than_mag (sed_file : CatalogFile) (filter_name : String) (mag_limit : ℚ) :
    Except String (List Int) := do
  let header ← read_header sed_file
  if filter_name ∉ header then
    throw "File does not have that filter in the header. Please check."
  let mag_column := header.indexOf filter_name
  let ids := sed_file.rows.map (fun r => r.getD 0 0)
  let mags := sed_file.rows.map (fun r => r.getD mag_column 0)
  pure (((ids.zip mags).filter (fun p => p.2 < mag_limit)).map (fun p => pyIntCast p.1))

/-- A pandas data frame read from a whitespace-delimited catalog: named
columns in file order.  Column 0 is what `np.loadtxt(..., usecols=0)` reads. -/
structure DataFrame where
  cols : List (String × List Int)
deriving DecidableEq

/-- The id column `np.loadtxt(..., usecols=0, skiprows=1)` reads. -/
def DataFrame.firstColumn (df : DataFrame) : List Int := (df.cols.headD ("", [])).2

/-- `combine_mag_gal_cats`: check the two id columns for equal length and
element-wise equality, then concatenate the columns side by side, dropping
the magnitude catalog's duplicate `ID` column.  (The `astype(int)` applied to
`id_galaxy_sky` is the identity here since columns are integer-valued.) -/
def combine_mag_gal_cats (gal_df mag_df : DataFrame) : Except String DataFrame :=
  let ids_mock := gal_df.firstColumn
  let ids_mag := mag_df.firstColumn
  if ids_mock.length ≠ ids_mag.length then
    .error "Length of mock_catalog must be the same as magnitude catalog."
  else if ids_mock ≠ ids_mag then
    .error "ID mismatch between the mock galaxies and the magnitude catalog."
  else
    .ok ⟨gal_df.cols ++ mag_df.cols.filter (fun c => c.1 ≠ "ID")⟩

/-- Concrete two-shard fixture used to evaluate the extraction invariants. -/
def fixtureShardA : SEDShard :=
  ⟨"a_SED_01.hdf5", ["u", "g"], [1, 2], [[10, 11], [20, 21]], [[30, 31], [40, 41]]⟩

/-- Second fixture shard, with its filters stored in a different order. -/
def fixtureShardB : SEDShard :=
  ⟨"a_SED_00.hdf5", ["g", "u"], [3], [[50], [60]], [[70], [80]]⟩

/-! ### General helper lemmas -/

theorem getD_indexOf {α : Type} [BEq α] [LawfulBEq α] :
    ∀ (l : List α) (v : α), v ∈ l → ∀ d : α, l.getD (l.indexOf v) d = v := by
  intro l
  induction l with
  | nil => simp
  | cons a t ih =>
    intro v hv d
    by_cases hav : a = v
    · subst hav
      simp [List.indexOf_cons]
    · have hmem : v ∈ t := by
        rcases List.mem_cons.mp hv with h | h
        · exact absurd h.symm hav
        · exact h
      have hbeq : (a == v) = false := by simpa using hav
      rw [List.indexOf_cons, hbeq, cond_false, List.getD_cons_succ]
      exact ih v hmem d

theorem indexOf_inj {α : Type} [BEq α] [LawfulBEq α] {l : List α} {a b : α}
    (ha : a ∈ l) (hb : b ∈ l) (h : l.indexOf a = l.indexOf b) : a = b := by
  have h1 := getD_indexOf l a ha a
  have h2 := getD_indexOf l b hb a
  rw [← h1, h, h2]

theorem length_filter_zip_fst {α β : Type} (p : α → Bool) :
    ∀ (l1 : List α) (l2 : List β), l1.length = l2.length →
      ((l1.zip l2).filter (fun q => p q.1)).length = (l1.filter p).length := by
  intro l1
  induction l1 with
  | nil => intro l2 _; simp
  | cons a t ih =>
    intro l2 h
    cases l2 with
    | nil => simp at h
    | cons b t2 =>
      have ht : t.length = t2.length := by simpa using h
      by_cases hp : p a <;>
        simp [List.zip_cons_cons, List.filter_cons, hp, ih t2 ht]

theorem dedupFirstAux_eq {α : Type} [DecidableEq α] :
    ∀ l seen : List α, dedupFirstAux seen l = dedupF (l.filter (fun x => x ∉ seen)) := by
  intro l
  induction l with
  | nil => intro seen; simp [dedupFirstAux, dedupF]
  | cons k ks ih =>
    intro seen
    by_cases hk : k ∈ seen
    · rw [dedupFirstAux, if_pos hk, List.filter_cons_of_neg (by simpa using hk)]
      exact ih seen
    · rw [dedupFirstAux, if_neg hk, List.filter_cons_of_pos (by simpa using hk), dedupF]
      congr 1
      rw [ih (k :: seen), List.filter_filter]
      exact congrArg dedupF (List.filter_congr (fun a _ => by
        by_cases h1 : a = k <;> by_cases h2 : a ∈ seen <;> simp [h1, h2]))

theorem dedupFirst_eq_dedupF {α : Type} [DecidableEq α] (l : List α) :
    dedupFirst l = dedupF l := by
  unfold dedupFirst
  rw [dedupFirstAux_eq]
  congr 1
  apply List.filter_eq_self.mpr
  intro a _
  simp

theorem mem_dedupF {α : Type} [DecidableEq α] :
    ∀ (l : List α) (a : α), a ∈ dedupF l ↔ a ∈ l := by
  intro l
  induction l using dedupF.induct with
  | case1 => simp [dedupF]
  | case2 k ks ih =>
    intro a
    rw [dedupF]
    simp only [List.mem_cons, ih, List.mem_filter]
    constructor
    · rintro (rfl | ⟨h, _⟩)
      · exact .inl rfl
      · exact .inr h
    · rintro (rfl | h)
      · exact .inl rfl
      · by_cases hak : a = k
        · exact .inl hak
        · exact .inr ⟨h, by simpa using hak⟩

theorem nodup_dedupF {α : Type} [DecidableEq α] :
    ∀ l : List α, (dedupF l).Nodup := by
  intro l
  induction l using dedupF.induct with
  | case1 => simp [dedupF]
  | case2 k ks ih =>
    rw [dedupF]
    refine List.nodup_cons.mpr ⟨?_, ih⟩
    intro hk
    rw [mem_dedupF] at hk
    simp at hk

theorem indexOf_filter_lt {α : Type} [BEq α] [LawfulBEq α] (p : α → Bool) :
    ∀ (l : List α) (a b : α), a ∈ l.filter p → b ∈ l.filter p →
      (l.filter p).indexOf a < (l.filter p).indexOf b → l.indexOf a < l.indexOf b := by
  intro l
  induction l with
  | nil => simp
  | cons x xs ih =>
    intro a b ha hb hlt
    rcases hpx : p x with _ | _
    · rw [List.filter_cons_of_neg (by simp [hpx])] at ha hb hlt
      have hax : a ≠ x := by
        intro h0
        rw [h0] at ha
        have := (List.mem_filter.mp ha).2
        rw [hpx] at this
        cases this
      have hbx : b ≠ x := by
        intro h0
        rw [h0] at hb
        have := (List.mem_filter.mp hb).2
        rw [hpx] at this
        cases this
      rw [List.indexOf_cons, List.indexOf_cons,
        show (x == a) = false by simpa using fun h => hax (h.symm),
        show (x == b) = false by simpa using fun h => hbx (h.symm), cond_false, cond_false]
      exact Nat.succ_lt_succ (ih a b ha hb hlt)
    · rw [List.filter_cons_of_pos (by simp [hpx])] at ha hb hlt
      by_cases hax : x = a
      · subst hax
        have hbx : b ≠ x := by
          intro h0
          rw [h0, List.indexOf_cons, beq_self_eq_true, cond_true] at hlt
          exact Nat.not_lt_zero _ hlt
        rw [List.indexOf_cons, beq_self_eq_true, cond_true, List.indexOf_cons,
          show (x == b) = false by simpa using fun h => hbx (h.symm), cond_false]
        exact Nat.succ_pos _
      · by_cases hbx : x = b
        · subst hbx
          rw [List.indexOf_cons, show (x == a) = false by simpa using hax,
            cond_false, List.indexOf_cons, beq_self_eq_true, cond_true] at hlt
          exact absurd hlt (Nat.not_lt_zero _)
        · have ha2 : a ∈ xs.filter p := by
            rcases List.mem_cons.mp ha with h | h
            · exact absurd h.symm hax
            · exact h
          have hb2 : b ∈ xs.filter p := by
            rcases List.mem_cons.mp hb with h | h
            · exact absurd h.symm hbx
            · exact h
          rw [List.indexOf_cons, List.indexOf_cons,
            show (x == a) = false by simpa using hax,
            show (x == b) = false by simpa using hbx, cond_false, cond_false] at hlt ⊢
          exact Nat.succ_lt_succ (ih a b ha2 hb2 (Nat.lt_of_succ_lt_succ hlt))

theorem pairwise_indexOf_dedupF {α : Type} [DecidableEq α] [BEq α] [LawfulBEq α] :
    ∀ l : List α, (dedupF l).Pairwise (fun a b => l.indexOf a < l.indexOf b) := by
  intro l
  induction l using dedupF.induct with
  | case1 => simp [dedupF]
  | case2 k ks ih =>
    rw [dedupF]
    refine List.pairwise_cons.mpr ⟨?_, ?_⟩
    · intro b hb
      have hb2 : b ∈ ks.filter (fun x => x ≠ k) := (mem_dedupF _ _).mp hb
      have hbk : b ≠ k := by simpa using (List.mem_filter.mp hb2).2
      rw [List.indexOf_cons, beq_self_eq_true, cond_true, List.indexOf_cons,
        show (k == b) = false by simpa using fun h => hbk h.symm, cond_false]
      exact Nat.succ_pos _
    · refine List.Pairwise.imp_of_mem ?_ ih
      intro a b ha hb hab
      have ha2 : a ∈ ks.filter (fun x => x ≠ k) := (mem_dedupF _ _).mp ha
      have hb2 : b ∈ ks.filter (fun x => x ≠ k) := (mem_dedupF _ _).mp hb
      have hak : a ≠ k := by simpa using (List.mem_filter.mp ha2).2
      have hbk : b ≠ k := by simpa using (List.mem_filter.mp hb2).2
      rw [List.indexOf_cons, List.indexOf_cons,
        show (k == a) = false by simpa using fun h => hak h.symm,
        show (k == b) = false by simpa using fun h => hbk h.symm, cond_false, cond_false]
      exact Nat.succ_lt_succ (indexOf_filter_lt _ ks a b ha2 hb2 hab)

theorem length_filter_not_eq_sub {α : Type} (p : α → Bool) (l : List α) :
    (l.filter (fun a => !p a)).length = l.length - (l.filter p).length := by
  have h := (List.filter_append_perm p l).length_eq
  rw [List.length_append] at h
  omega

theorem mapMExcept_ok {α β : Type} (g : α → Except String β) (h : α → β) :
    ∀ l : List α, (∀ x ∈ l, g x = .ok (h x)) → mapMExcept g l = .ok (l.map h) := by
  intro l
  induction l with
  | nil => intro _; rfl
  | cons x xs ih =>
    intro hall
    have h1 : g x = .ok (h x) := hall x (List.mem_cons_self x xs)
    have h2 : mapMExcept g xs = .ok (xs.map h) :=
      ih (fun y hy => hall y (List.mem_cons_of_mem x hy))
    simp [mapMExcept, h1, h2]

theorem zip_join_eq_map {gam alf bet : Type} (fa : gam → List alf) (fb : gam → List bet) :
    ∀ l : List gam, (∀ x ∈ l, (fa x).length = (fb x).length) →
      (l.map fa).join.zip (l.map fb).join = (l.map (fun x => (fa x).zip (fb x))).join := by
  intro l
  induction l with
  | nil => intro _; rfl
  | cons x xs ih =>
    intro hall
    simp only [List.map_cons, List.join_cons]
    rw [List.zip_append (hall x (List.mem_cons_self x xs))]
    rw [ih (fun y hy => hall y (List.mem_cons_of_mem x hy))]

theorem getD_mem_of_lt {α : Type} (l : List α) {i : ℕ} (hi : i < l.length) (d : α) :
    l.getD i d ∈ l := by
  rw [List.getD_eq_getElem?_getD, List.getElem?_eq_getElem hi]
  simpa using List.getElem_mem hi

theorem getD_map_of_lt {α β : Type} (f : α → β) (l : List α) {i : ℕ}
    (hi : i < l.length) (d : β) : (l.map f).getD i d = f (l.get ⟨i, hi⟩) := by
  rw [List.getD_eq_getElem?_getD, List.getElem?_map, List.getElem?_eq_getElem hi]
  simp

/-! ### C3: grouping filters by resolved shard-group pattern -/

theorem foldl_addPair_char {α β : Type} [DecidableEq α] :
    ∀ (ps : List (α × β)) (acc : List (α × List β)), (acc.map Prod.fst).Nodup →
      ps.foldl addPair acc
        = acc.map (fun q => (q.1, q.2 ++ (ps.filter (fun x => x.1 = q.1)).map Prod.snd))
          ++ (dedupF ((ps.filter (fun x => x.1 ∉ acc.map Prod.fst)).map Prod.fst)).map
              (fun k => (k, (ps.filter (fun x => x.1 = k)).map Prod.snd)) := by
  intro ps
  induction ps with
  | nil =>
    intro acc _
    simp [dedupF]
  | cons p ps2 ih =>
    intro acc hnd
    rw [List.foldl_cons]
    by_cases hin : p.1 ∈ acc.map Prod.fst
    · have haddA : addPair acc p
          = acc.map (fun q => if q.1 = p.1 then (q.1, q.2 ++ [p.2]) else q) := by
        unfold addPair
        rw [if_pos]
        rw [List.any_eq_true]
        rcases List.mem_map.mp hin with ⟨q, hq, hq1⟩
        exact ⟨q, hq, by simp [hq1]⟩
      have hkeys : (addPair acc p).map Prod.fst = acc.map Prod.fst := by
        rw [haddA, List.map_map]
        apply List.map_congr_left
        intro q _
        by_cases h : q.1 = p.1 <;> simp [h]
      rw [ih (addPair acc p) (by rw [hkeys]; exact hnd)]
      rw [hkeys]
      congr 1
      · rw [haddA, List.map_map]
        apply List.map_congr_left
        intro q _
        by_cases h : q.1 = p.1
        · simp only [Function.comp_apply, if_pos h]
          rw [List.filter_cons_of_pos (by simp [h])]
          simp [List.append_assoc]
        · simp only [Function.comp_apply, if_neg h]
          rw [List.filter_cons_of_neg (by simpa using fun h0 => h h0.symm)]
      · rw [List.filter_cons_of_neg (by simpa using hin)]
        apply List.map_congr_left
        intro k hk
        have hkmem : k ∈ (ps2.filter (fun x => x.1 ∉ acc.map Prod.fst)).map Prod.fst :=
          (mem_dedupF _ _).mp hk
        rcases List.mem_map.mp hkmem with ⟨q, hq, rfl⟩
        have hknot : q.1 ∉ acc.map Prod.fst := by simpa using (List.mem_filter.mp hq).2
        have hkp : p.1 ≠ q.1 := fun h0 => hknot (h0 ▸ hin)
        rw [List.filter_cons_of_neg (by simpa using hkp)]
    · have haddB : addPair acc p = acc ++ [(p.1, [p.2])] := by
        unfold addPair
        rw [if_neg]
        intro hany
        rcases List.any_eq_true.mp hany with ⟨q, hq, hq1⟩
        exact hin (List.mem_map.mpr ⟨q, hq, by simpa using hq1⟩)
      have hkeys : (addPair acc p).map Prod.fst = acc.map Prod.fst ++ [p.1] := by
        rw [haddB, List.map_append]
        rfl
      have hnd2 : ((addPair acc p).map Prod.fst).Nodup := by
        rw [hkeys]
        exact List.Nodup.append hnd (List.nodup_singleton _)
          (fun a ha hb => hin ((List.mem_singleton.mp hb) ▸ ha))
      rw [ih (addPair acc p) hnd2]
      rw [hkeys, haddB, List.map_append]
      have hmerge : ((ps2.filter (fun x => x.1 ∉ acc.map Prod.fst)).map Prod.fst).filter
            (fun x => x ≠ p.1)
          = (ps2.filter (fun x => x.1 ∉ acc.map Prod.fst ++ [p.1])).map Prod.fst := by
        rw [List.filter_map, List.filter_filter]
        congr 1
        apply List.filter_congr
        intro x _
        by_cases h1 : x.1 ∈ acc.map Prod.fst <;> by_cases h2 : x.1 = p.1 <;>
          simp [h1, h2, Function.comp]
      have hRnew : ((p :: ps2).filter (fun x => x.1 ∉ acc.map Prod.fst)).map Prod.fst
          = p.1 :: (ps2.filter (fun x => x.1 ∉ acc.map Prod.fst)).map Prod.fst := by
        rw [List.filter_cons_of_pos (by simpa using hin)]
        rfl
      rw [hRnew, dedupF, hmerge]
      rw [List.map_cons (fun k => (k, ((p :: ps2).filter (fun x => x.1 = k)).map Prod.snd)) p.1]
      rw [List.filter_cons_of_pos (by simp)]
      have hacc : acc.map (fun q =>
            (q.1, q.2 ++ ((p :: ps2).filter (fun x => x.1 = q.1)).map Prod.snd))
          = acc.map (fun q =>
            (q.1, q.2 ++ (ps2.filter (fun x => x.1 = q.1)).map Prod.snd)) := by
        apply List.map_congr_left
        intro q hq
        have hq1 : q.1 ∈ acc.map Prod.fst := List.mem_map.mpr ⟨q, hq, rfl⟩
        have hqp : p.1 ≠ q.1 := fun h0 => hin (h0 ▸ hq1)
        rw [List.filter_cons_of_neg (by simpa using hqp)]
      rw [hacc]
      have htail : (dedupF ((ps2.filter
            (fun x => x.1 ∉ acc.map Prod.fst ++ [p.1])).map Prod.fst)).map
            (fun k => (k, ((p :: ps2).filter (fun x => x.1 = k)).map Prod.snd))
          = (dedupF ((ps2.filter
            (fun x => x.1 ∉ acc.map Prod.fst ++ [p.1])).map Prod.fst)).map
            (fun k => (k, (ps2.filter (fun x => x.1 = k)).map Prod.snd)) := by
        apply List.map_congr_left
        intro k hk
        have hkmem := (mem_dedupF _ _).mp hk
        rcases List.mem_map.mp hkmem with ⟨q, hq, rfl⟩
        have hknot : q.1 ∉ acc.map Prod.fst ++ [p.1] := by
          simpa using (List.mem_filter.mp hq).2
        have hkp : p.1 ≠ q.1 := by
          intro h0
          exact hknot (by simp [← h0])
        rw [List.filter_cons_of_neg (by simpa using hkp)]
      rw [htail]
      simp [List.append_assoc]

theorem join_filter_key_perm {α β : Type} [DecidableEq α] :
    ∀ (K : List α) (ps : List (α × β)), K.Nodup → (∀ x ∈ ps, x.1 ∈ K) →
      (K.map (fun k => (ps.filter (fun x => x.1 = k)).map Prod.snd)).join.Perm
        (ps.map Prod.snd) := by
  intro K
  induction K with
  | nil =>
    intro ps _ hall
    have hps : ps = [] := by
      cases ps with
      | nil => rfl
      | cons q qs => exact absurd (hall q (List.mem_cons_self q qs)) (List.not_mem_nil _)
    subst hps
    simp
  | cons k K2 ih =>
    intro ps hnd hall
    simp only [List.map_cons, List.join_cons]
    have hnd2 := List.nodup_cons.mp hnd
    have hinner : K2.map (fun k2 => (ps.filter (fun x => x.1 = k2)).map Prod.snd)
        = K2.map (fun k2 => ((ps.filter (fun x => x.1 ≠ k)).filter
            (fun x => x.1 = k2)).map Prod.snd) := by
      apply List.map_congr_left
      intro k2 hk2
      have hk2k : k2 ≠ k := fun h0 => hnd2.1 (h0 ▸ hk2)
      congr 1
      rw [List.filter_filter]
      apply List.filter_congr
      intro x _
      by_cases h : x.1 = k2
      · simp [h, hk2k]
      · simp [h]
    rw [hinner]
    have hih := ih (ps.filter (fun x => x.1 ≠ k)) hnd2.2 (fun x hx => by
      have hx1 := hall x (List.mem_of_mem_filter hx)
      have hx2 : x.1 ≠ k := by simpa using (List.mem_filter.mp hx).2
      rcases List.mem_cons.mp hx1 with h | h
      · exact absurd h hx2
      · exact h)
    refine List.Perm.trans (List.Perm.append_left _ hih) ?_
    have hneg : ps.filter (fun x => x.1 ≠ k) = ps.filter (fun x => !(decide (x.1 = k))) := by
      apply List.filter_congr
      intro x _
      by_cases h : x.1 = k <;> simp [h]
    rw [hneg, ← List.map_append]
    exact (List.filter_append_perm _ ps).map Prod.snd

/-- C3: `assign_filters_to_cmds` partitions the requested filters: the group
keys are the resolved patterns in first-encounter order, each group holds
exactly the filters that resolved to its pattern in request order (a sublist
of the request), and the concatenation of all groups is a permutation of the
request. -/
theorem assign_filters_to_cmds_partition {α β : Type} [DecidableEq α]
    (cmds : List α) (filter_list : List β) (hlen : cmds.length = filter_list.length) :
    (assign_filters_to_cmds cmds filter_list).1 = dedupFirst cmds ∧
    (assign_filters_to_cmds cmds filter_list).2
      = (dedupFirst cmds).map (fun k =>
          ((cmds.zip filter_list).filter (fun x => x.1 = k)).map Prod.snd) ∧
    (assign_filters_to_cmds cmds filter_list).2.join.Perm filter_list ∧
    (∀ g ∈ (assign_filters_to_cmds cmds filter_list).2, g.Sublist filter_list) := by
  have hchar : (cmds.zip filter_list).foldl addPair []
      = (dedupF (((cmds.zip filter_list)).map Prod.fst)).map
          (fun k => (k, ((cmds.zip filter_list).filter (fun x => x.1 = k)).map Prod.snd)) := by
    rw [foldl_addPair_char (cmds.zip filter_list) [] (by simp)]
    rw [List.filter_eq_self.mpr (fun a _ => by simp)]
    simp
  have hfst : (cmds.zip filter_list).map Prod.fst = cmds :=
    List.map_fst_zip cmds filter_list (le_of_eq hlen)
  have hsnd : (cmds.zip filter_list).map Prod.snd = filter_list :=
    List.map_snd_zip cmds filter_list (le_of_eq hlen.symm)
  have h1 : (assign_filters_to_cmds cmds filter_list).1 = dedupFirst cmds := by
    unfold assign_filters_to_cmds
    dsimp only
    rw [hchar, List.map_map, hfst, dedupFirst_eq_dedupF]
    conv_rhs => rw [← List.map_id (dedupF cmds)]
    apply List.map_congr_left
    intro k _
    rfl
  have h2 : (assign_filters_to_cmds cmds filter_list).2
      = (dedupFirst cmds).map (fun k =>
          ((cmds.zip filter_list).filter (fun x => x.1 = k)).map Prod.snd) := by
    unfold assign_filters_to_cmds
    dsimp only
    rw [hchar, List.map_map, hfst, dedupFirst_eq_dedupF]
    apply List.map_congr_left
    intro k _
    rfl
  refine ⟨h1, h2, ?_, ?_⟩
  · rw [h2]
    have hperm : ((dedupFirst cmds).map (fun k =>
          ((cmds.zip filter_list).filter (fun x => x.1 = k)).map Prod.snd)).join.Perm
        ((cmds.zip filter_list).map Prod.snd) := by
      rw [dedupFirst_eq_dedupF]
      apply join_filter_key_perm
      · exact nodup_dedupF _
      · intro x hx
        rw [mem_dedupF, ← hfst]
        exact List.mem_map.mpr ⟨x, hx, rfl⟩
    rw [hsnd] at hperm
    exact hperm
  · intro g hg
    rw [h2] at hg
    rcases List.mem_map.mp hg with ⟨k, _, rfl⟩
    have hsub : ((cmds.zip filter_list).filter (fun x => x.1 = k)).map Prod.snd |>.Sublist
        ((cmds.zip filter_list).map Prod.snd) :=
      ((cmds.zip filter_list).filter_sublist).map Prod.snd
    rw [hsnd] at hsub
    exact hsub

/-- C3 witness: the spec scenario — patterns `["A", "B", "A"]` for requested
filters `["x", "z", "y"]` group into `A ↦ [x, y]`, `B ↦ [z]` with group order
`[A, B]`. -/
theorem assign_filters_to_cmds_partition_witness :
    (["A", "B", "A"] : List String).length = (["x", "z", "y"] : List String).length ∧
    ((assign_filters_to_cmds ["A", "B", "A"] ["x", "z", "y"]).1
        = dedupFirst ["A", "B", "A"] ∧
     (assign_filters_to_cmds ["A", "B", "A"] ["x", "z", "y"]).2
        = (dedupFirst ["A", "B", "A"]).map (fun k =>
            (((["A", "B", "A"] : List String).zip
                (["x", "z", "y"] : List String)).filter
              (fun x => x.1 = k)).map Prod.snd) ∧
     (assign_filters_to_cmds ["A", "B", "A"] ["x", "z", "y"]).2.join.Perm
        ["x", "z", "y"] ∧
     (∀ g ∈ (assign_filters_to_cmds ["A", "B", "A"] ["x", "z", "y"]).2,
        g.Sublist ["x", "z", "y"])) :=
  ⟨rfl, assign_filters_to_cmds_partition ["A", "B", "A"] ["x", "z", "y"] rfl⟩

/-! ### C8: filter discovery preserves first-occurrence order -/

theorem sorted_pairs_fst_eq_dedupF (all u : List String)
    (hu_nodup : u.Nodup) (hu_mem : ∀ x, x ∈ u ↔ x ∈ all) :
    (List.insertionSort (fun p q : String × ℕ => p.2 ≤ q.2)
        (u.map (fun v => (v, all.indexOf v)))).map Prod.fst = dedupF all := by
  have hSperm : (List.insertionSort (fun p q : String × ℕ => p.2 ≤ q.2)
      (u.map (fun v => (v, all.indexOf v)))).Perm (u.map (fun v => (v, all.indexOf v))) :=
    List.perm_insertionSort _ _
  have hfstperm : ((List.insertionSort (fun p q : String × ℕ => p.2 ≤ q.2)
      (u.map (fun v => (v, all.indexOf v)))).map Prod.fst).Perm u := by
    have h0 := hSperm.map Prod.fst
    rw [List.map_map] at h0
    have h1 : u.map (Prod.fst ∘ fun v => (v, all.indexOf v)) = u := by
      conv_rhs => rw [← List.map_id u]
      apply List.map_congr_left
      intro v _
      rfl
    rwa [h1] at h0
  have hnodupfst : ((List.insertionSort (fun p q : String × ℕ => p.2 ≤ q.2)
      (u.map (fun v => (v, all.indexOf v)))).map Prod.fst).Nodup :=
    hfstperm.nodup_iff.mpr hu_nodup
  have hmemS : ∀ p ∈ List.insertionSort (fun p q : String × ℕ => p.2 ≤ q.2)
      (u.map (fun v => (v, all.indexOf v))), p.2 = all.indexOf p.1 ∧ p.1 ∈ all := by
    intro p hp
    have hp2 := hSperm.mem_iff.mp hp
    rcases List.mem_map.mp hp2 with ⟨v, hv, rfl⟩
    exact ⟨rfl, (hu_mem v).mp hv⟩
  haveI : IsTotal (String × ℕ) (fun p q => p.2 ≤ q.2) := ⟨fun a b => Nat.le_total a.2 b.2⟩
  haveI : IsTrans (String × ℕ) (fun p q => p.2 ≤ q.2) :=
    ⟨fun a b c h1 h2 => le_trans h1 h2⟩
  have hsorted : (List.insertionSort (fun p q : String × ℕ => p.2 ≤ q.2)
      (u.map (fun v => (v, all.indexOf v)))).Pairwise (fun p q => p.2 ≤ q.2) :=
    List.sorted_insertionSort _ _
  have hnefst : (List.insertionSort (fun p q : String × ℕ => p.2 ≤ q.2)
      (u.map (fun v => (v, all.indexOf v)))).Pairwise (fun p q => p.1 ≠ q.1) :=
    List.pairwise_map.mp hnodupfst
  have hstrict : ((List.insertionSort (fun p q : String × ℕ => p.2 ≤ q.2)
      (u.map (fun v => (v, all.indexOf v)))).map Prod.fst).Pairwise
      (fun a b => all.indexOf a < all.indexOf b) := by
    rw [List.pairwise_map]
    refine List.Pairwise.imp_of_mem ?_ (hsorted.and hnefst)
    intro p q hp hq hpq
    have h1 := hmemS p hp
    have h2 := hmemS q hq
    have hle : all.indexOf p.1 ≤ all.indexOf q.1 := by
      rw [← h1.1, ← h2.1]
      exact hpq.1
    have hne2 : all.indexOf p.1 ≠ all.indexOf q.1 :=
      fun h0 => hpq.2 (indexOf_inj h1.2 h2.2 h0)
    exact lt_of_le_of_ne hle hne2
  have hperm2 : ((List.insertionSort (fun p q : String × ℕ => p.2 ≤ q.2)
      (u.map (fun v => (v, all.indexOf v)))).map Prod.fst).Perm (dedupF all) := by
    refine (List.perm_ext_iff_of_nodup hnodupfst (nodup_dedupF all)).mpr ?_
    intro a
    rw [mem_dedupF, hfstperm.mem_iff]
    exact hu_mem a
  haveI : IsAntisymm String (fun a b => all.indexOf a < all.indexOf b) :=
    ⟨fun a b h1 h2 => absurd h2 (Nat.lt_asymm h1)⟩
  exact List.eq_of_perm_of_sorted hperm2 hstrict (pairwise_indexOf_dedupF all)

theorem uniqueInOrder_eq_dedupFirst (all : List String) :
    uniqueInOrder all = dedupFirst all := by
  rw [dedupFirst_eq_dedupF]
  unfold uniqueInOrder
  exact sorted_pairs_fst_eq_dedupF all
    (List.insertionSort (fun a b : String => a ≤ b) all.dedup)
    ((List.perm_insertionSort _ _).nodup_iff.mpr all.nodup_dedup)
    (fun x => by rw [(List.perm_insertionSort _ _).mem_iff]; exact List.mem_dedup)

/-- C8: for a directory with at least one representative shard,
`scrape_available_filters` succeeds and returns the concatenation of the
representative shards' filter columns deduplicated in first-occurrence order:
each filter appears exactly once (Nodup), the result has exactly the filters
of the concatenation, and its elements are ordered by ascending position of
their first occurrence in the concatenation — not in sorted order. -/
theorem scrape_available_filters_first_occurrence (shards : List SEDShard)
    (hne : shards ≠ []) :
    scrape_available_filters shards
      = .ok (dedupFirst (((select_appropriate_sed_files shards).map
          (fun f => f.filters)).join)) ∧
    (dedupFirst (((select_appropriate_sed_files shards).map
        (fun f => f.filters)).join)).Nodup ∧
    (∀ x, x ∈ dedupFirst (((select_appropriate_sed_files shards).map
          (fun f => f.filters)).join)
        ↔ x ∈ ((select_appropriate_sed_files shards).map (fun f => f.filters)).join) ∧
    (dedupFirst (((select_appropriate_sed_files shards).map
        (fun f => f.filters)).join)).Pairwise
      (fun a b =>
        (((select_appropriate_sed_files shards).map (fun f => f.filters)).join).indexOf a
          < (((select_appropriate_sed_files shards).map
              (fun f => f.filters)).join).indexOf b) := by
  have hfe : select_appropriate_sed_files shards ≠ [] := by
    unfold select_appropriate_sed_files sortShardsByName
    intro h0
    apply hne
    have h1 : List.insertionSort (fun a b : SEDShard => a.name ≤ b.name) shards = [] := by
      cases hh : List.insertionSort (fun a b : SEDShard => a.name ≤ b.name) shards with
      | nil => rfl
      | cons a l =>
        rw [hh] at h0
        simp at h0
    have h2 := (List.perm_insertionSort
      (fun a b : SEDShard => a.name ≤ b.name) shards).length_eq
    rw [h1] at h2
    exact List.length_eq_zero.mp h2.symm
  refine ⟨?_, ?_, ?_, ?_⟩
  · obtain ⟨f0, rest, hcons⟩ := List.exists_cons_of_ne_nil hfe
    unfold scrape_available_filters
    dsimp only
    rw [hcons]
    simp only [np_concatenate, List.map_cons, List.isEmpty_cons, bind, Except.bind,
      pure, Except.pure, if_false, Bool.false_eq_true]
    rw [uniqueInOrder_eq_dedupFirst]
  · rw [dedupFirst_eq_dedupF]
    exact nodup_dedupF _
  · intro x
    rw [dedupFirst_eq_dedupF, mem_dedupF]
  · rw [dedupFirst_eq_dedupF]
    exact pairwise_indexOf_dedupF _

/-- C8 witness: two representative shards exposing `["u", "g"]` and
`["g", "u"]`; after the descending-name file ordering the concatenation is
`["u", "g", "g", "u"]` and discovery keeps `u` then `g` — first-occurrence
order, with each filter listed once. -/
theorem scrape_available_filters_first_occurrence_witness :
    ([fixtureShardA, fixtureShardB] : List SEDShard) ≠ [] ∧
    (scrape_available_filters [fixtureShardA, fixtureShardB]
      = .ok (dedupFirst (((select_appropriate_sed_files
          [fixtureShardA, fixtureShardB]).map (fun f => f.filters)).join)) ∧
    (dedupFirst (((select_appropriate_sed_files [fixtureShardA, fixtureShardB]).map
        (fun f => f.filters)).join)).Nodup ∧
    (∀ x, x ∈ dedupFirst (((select_appropriate_sed_files
          [fixtureShardA, fixtureShardB]).map (fun f => f.filters)).join)
        ↔ x ∈ ((select_appropriate_sed_files [fixtureShardA, fixtureShardB]).map
            (fun f => f.filters)).join) ∧
    (dedupFirst (((select_appropriate_sed_files [fixtureShardA, fixtureShardB]).map
        (fun f => f.filters)).join)).Pairwise
      (fun a b =>
        (((select_appropriate_sed_files [fixtureShardA, fixtureShardB]).map
            (fun f => f.filters)).join).indexOf a
          < (((select_appropriate_sed_files [fixtureShardA, fixtureShardB]).map
              (fun f => f.filters)).join).indexOf b)) :=
  ⟨by decide,
    scrape_available_filters_first_occurrence [fixtureShardA, fixtureShardB] (by decide)⟩

/-! ### C9: zero representative shards -/

/-- C9: for a directory containing zero representative shards, the claim says
`scrape_available_filters` returns an empty result rather than raising; the
code instead calls `np.concatenate` on an empty list of arrays, which raises
`ValueError: need at least one array to concatenate`.  This theorem evaluates
the embedded code at the failing input. -/
theorem scrape_available_filters_empty_raises :
    scrape_available_filters [] = .error "need at least one array to concatenate" := rfl

/-! ### C5: filter contained in no representative shard -/

/-- C5: for a filter contained in no representative shard, the claim (and the
spec) say resolution fails with a `FilterNotFound` error naming the filter;
the code falls out of its scan loop with `correct_file` never assigned and
crashes with `UnboundLocalError` (modelled as `none`) — an unrelated error
that does not name the filter.  The second conjunct shows the normal
first-match behaviour for contrast. -/
theorem find_sed_files_with_filter_missing_crashes :
    find_sed_files_with_filter
        [⟨"SED_sample_files/mock_SED_00.hdf5", ["u_VST"], [], [], []⟩] "g_VST" = none ∧
    find_sed_files_with_filter
        [⟨"SED_sample_files/mock_SED_00.hdf5", ["u_VST"], [], [], []⟩] "u_VST"
      = some (sed_group_pattern "SED_sample_files/mock_SED_00.hdf5") := by
  constructor
  · rfl
  · rfl

/-! ### C1: order-sensitive id check in the join -/

/-- C1 counterexample: the join raises on permuted ids, but with one fixed
error message that is independent of where the sequences first differ (first
difference at position 0 in the first input pair, at position 1 in the
second), so the error cannot name the first differing position as the claim
states. -/
theorem combine_mag_gal_cats_error_is_positionless :
    combine_mag_gal_cats ⟨[("id_galaxy_sky", [1, 2])]⟩ ⟨[("ID", [2, 1])]⟩
      = .error "ID mismatch between the mock galaxies and the magnitude catalog." ∧
    combine_mag_gal_cats ⟨[("id_galaxy_sky", [1, 2, 3])]⟩ ⟨[("ID", [1, 3, 2])]⟩
      = .error "ID mismatch between the mock galaxies and the magnitude catalog." := by
  constructor
  · rfl
  · rfl

/-- C1 amended: the join verifies equal length and element-wise id equality
before concatenating; for id sequences that are permutations of each other
but not equal position-by-position it raises the (fixed-message) id-mismatch
error and produces no output. -/
theorem combine_mag_gal_cats_permutation_error (gal_df mag_df : DataFrame)
    (hperm : gal_df.firstColumn.Perm mag_df.firstColumn)
    (hne : gal_df.firstColumn ≠ mag_df.firstColumn) :
    combine_mag_gal_cats gal_df mag_df
      = .error "ID mismatch between the mock galaxies and the magnitude catalog." := by
  unfold combine_mag_gal_cats
  rw [if_neg (by simp [hperm.length_eq]), if_pos hne]

/-- C1 witness: the amended theorem applied at a concrete permuted input. -/
theorem combine_mag_gal_cats_permutation_error_witness :
    (⟨[("id_galaxy_sky", [4, 5, 6])]⟩ : DataFrame).firstColumn.Perm
        (⟨[("ID", [5, 4, 6])]⟩ : DataFrame).firstColumn ∧
    (⟨[("id_galaxy_sky", [4, 5, 6])]⟩ : DataFrame).firstColumn
        ≠ (⟨[("ID", [5, 4, 6])]⟩ : DataFrame).firstColumn ∧
    combine_mag_gal_cats ⟨[("id_galaxy_sky", [4, 5, 6])]⟩ ⟨[("ID", [5, 4, 6])]⟩
      = .error "ID mismatch between the mock galaxies and the magnitude catalog." :=
  ⟨by decide, by decide,
    combine_mag_gal_cats_permutation_error _ _ (by decide) (by decide)⟩

/-! ### C2: alignment invariant of shard-group extraction -/

theorem get_filter_data_apparent (sed : SEDShard) (fn : String) (hf : fn ∈ sed.filters) :
    get_filter_data sed fn "Apparent"
      = .ok (sed.ap_dust_total.getD (sed.filters.indexOf fn) []) := by
  unfold get_filter_data
  rw [if_neg (by simp), if_neg (by simpa using hf)]
  simp

theorem get_filter_data_absolute (sed : SEDShard) (fn : String) (hf : fn ∈ sed.filters) :
    get_filter_data sed fn "Absolute"
      = .ok (sed.ab_dust_total.getD (sed.filters.indexOf fn) []) := by
  unfold get_filter_data
  rw [if_neg (by simp), if_neg (by simpa using hf)]
  simp

theorem get_filters_data_apparent (sed : SEDShard) (filter_names : List String)
    (hpres : ∀ fn ∈ filter_names, fn ∈ sed.filters) :
    get_filters_data sed filter_names "Apparent"
      = .ok (filter_names.map (fun fn => sed.ap_dust_total.getD (sed.filters.indexOf fn) [])) :=
  mapMExcept_ok _ _ _ (fun fn hfn => get_filter_data_apparent sed fn (hpres fn hfn))

theorem get_filters_data_absolute (sed : SEDShard) (filter_names : List String)
    (hpres : ∀ fn ∈ filter_names, fn ∈ sed.filters) :
    get_filters_data sed filter_names "Absolute"
      = .ok (filter_names.map (fun fn => sed.ab_dust_total.getD (sed.filters.indexOf fn) [])) :=
  mapMExcept_ok _ _ _ (fun fn hfn => get_filter_data_absolute sed fn (hpres fn hfn))

/-- C2: under the hdf5 layout invariants (one magnitude row per filter, one
column per galaxy) and with every requested filter present, `get_mag_data`
succeeds and returns an id vector whose length N is the sum of the member
shards' row counts (members sorted by file name), one apparent and one
absolute value vector per requested filter, each of length N; and the id/value
vectors are index-aligned: zipping ids with the f-th value vector is exactly
the concatenation of the per-shard (id, value) pairings. -/
theorem get_mag_data_aligned (shard_group : List SEDShard) (filter_names : List String)
    (hne : shard_group ≠ []) (hfne : filter_names ≠ [])
    (hlen_ap : ∀ s ∈ shard_group, s.ap_dust_total.length = s.filters.length)
    (hlen_ab : ∀ s ∈ shard_group, s.ab_dust_total.length = s.filters.length)
    (hrow_ap : ∀ s ∈ shard_group, ∀ r ∈ s.ap_dust_total, r.length = s.galaxy_sky_ids.length)
    (hrow_ab : ∀ s ∈ shard_group, ∀ r ∈ s.ab_dust_total, r.length = s.galaxy_sky_ids.length)
    (hpres : ∀ s ∈ shard_group, ∀ fn ∈ filter_names, fn ∈ s.filters) :
    ∃ ids ap ab,
      get_mag_data shard_group filter_names = .ok (ids, ap, ab) ∧
      ids.length
        = ((sortShardsByName shard_group).map (fun s => s.galaxy_sky_ids.length)).sum ∧
      ap.length = filter_names.length ∧
      ab.length = filter_names.length ∧
      (∀ row ∈ ap, row.length = ids.length) ∧
      (∀ row ∈ ab, row.length = ids.length) ∧
      (∀ f, (hf : f < filter_names.length) →
        ids.zip (ap.getD f []) = ((sortShardsByName shard_group).map (fun s =>
            s.galaxy_sky_ids.zip
              (s.ap_dust_total.getD
                (s.filters.indexOf (filter_names.get ⟨f, hf⟩)) []))).join ∧
        ids.zip (ab.getD f []) = ((sortShardsByName shard_group).map (fun s =>
            s.galaxy_sky_ids.zip
              (s.ab_dust_total.getD
                (s.filters.indexOf (filter_names.get ⟨f, hf⟩)) []))).join) := by
  have hperm : List.Perm (sortShardsByName shard_group) shard_group := by
    unfold sortShardsByName
    exact List.perm_insertionSort _ _
  have hmem : ∀ s ∈ sortShardsByName shard_group, s ∈ shard_group :=
    fun s hs => hperm.mem_iff.mp hs
  have hsne : sortShardsByName shard_group ≠ [] := by
    intro h0
    apply hne
    have hl := hperm.length_eq
    rw [h0] at hl
    exact List.length_eq_zero.mp hl.symm
  -- the per-shard chunk values
  have hchunks : mapMExcept (fun sed => do
      let ap ← get_filters_data sed filter_names "Apparent"
      let ab ← get_filters_data sed filter_names "Absolute"
      pure (sed.galaxy_sky_ids, ap, ab)) (sortShardsByName shard_group)
      = .ok ((sortShardsByName shard_group).map (fun s =>
          (s.galaxy_sky_ids,
           filter_names.map (fun fn => s.ap_dust_total.getD (s.filters.indexOf fn) []),
           filter_names.map (fun fn => s.ab_dust_total.getD (s.filters.indexOf fn) [])))) := by
    apply mapMExcept_ok
    intro s hs
    rw [show (do
        let ap ← get_filters_data s filter_names "Apparent"
        let ab ← get_filters_data s filter_names "Absolute"
        pure (s.galaxy_sky_ids, ap, ab) : Except String _)
      = _ from rfl]
    simp only [bind, Except.bind, get_filters_data_apparent s filter_names (hpres s (hmem s hs)),
      get_filters_data_absolute s filter_names (hpres s (hmem s hs)), pure, Except.pure]
  -- per-shard value-row lengths
  have hrow_len_ap : ∀ s ∈ shard_group, ∀ f : ℕ, f < filter_names.length →
      ((filter_names.map (fun fn =>
          s.ap_dust_total.getD (s.filters.indexOf fn) [])).getD f []).length
        = s.galaxy_sky_ids.length := by
    intro s hs f hf
    rw [getD_map_of_lt _ _ hf]
    apply hrow_ap s hs
    apply getD_mem_of_lt
    rw [hlen_ap s hs]
    exact List.indexOf_lt_length.mpr (hpres s hs _ (List.get_mem _ _ hf))
  have hrow_len_ab : ∀ s ∈ shard_group, ∀ f : ℕ, f < filter_names.length →
      ((filter_names.map (fun fn =>
          s.ab_dust_total.getD (s.filters.indexOf fn) [])).getD f []).length
        = s.galaxy_sky_ids.length := by
    intro s hs f hf
    rw [getD_map_of_lt _ _ hf]
    apply hrow_ab s hs
    apply getD_mem_of_lt
    rw [hlen_ab s hs]
    exact List.indexOf_lt_length.mpr (hpres s hs _ (List.get_mem _ _ hf))
  refine ⟨((sortShardsByName shard_group).map (fun s => s.galaxy_sky_ids)).join,
    (List.range filter_names.length).map (fun f =>
      ((sortShardsByName shard_group).map (fun s =>
        (filter_names.map (fun fn =>
          s.ap_dust_total.getD (s.filters.indexOf fn) [])).getD f [])).join),
    (List.range filter_names.length).map (fun f =>
      ((sortShardsByName shard_group).map (fun s =>
        (filter_names.map (fun fn =>
          s.ab_dust_total.getD (s.filters.indexOf fn) [])).getD f [])).join),
    ?_, ?_, ?_, ?_, ?_, ?_, ?_⟩
  · obtain ⟨s0, rest, hcons⟩ := List.exists_cons_of_ne_nil hsne
    unfold get_mag_data
    dsimp only
    rw [hchunks, hcons]
    simp [np_concatenate, np_hstack, bind, Except.bind, pure, Except.pure,
      List.map_map, Function.comp, List.getD_eq_getElem?_getD]
    refine ⟨?_, ?_, ?_⟩
    · congr 1
    · intro a _
      congr 1
      apply List.map_congr_left
      intro s _
      simp [List.getElem?_map]
    · intro a _
      congr 1
      apply List.map_congr_left
      intro s _
      simp [List.getElem?_map]
  · rw [List.length_join, List.map_map]
    congr 1
  · simp
  · simp
  · intro row hrow
    rcases List.mem_map.mp hrow with ⟨f, hfmem, rfl⟩
    have hf : f < filter_names.length := List.mem_range.mp hfmem
    rw [List.length_join, List.length_join, List.map_map, List.map_map]
    congr 1
    apply List.map_congr_left
    intro s hs
    simp only [Function.comp_apply]
    rw [hrow_len_ap s (hmem s hs) f hf]
  · intro row hrow
    rcases List.mem_map.mp hrow with ⟨f, hfmem, rfl⟩
    have hf : f < filter_names.length := List.mem_range.mp hfmem
    rw [List.length_join, List.length_join, List.map_map, List.map_map]
    congr 1
    apply List.map_congr_left
    intro s hs
    simp only [Function.comp_apply]
    rw [hrow_len_ab s (hmem s hs) f hf]
  · intro f hf
    constructor
    · rw [getD_map_of_lt _ _ (by simpa using hf), List.get_range]
      have hz := zip_join_eq_map (fun s : SEDShard => s.galaxy_sky_ids)
        (fun s : SEDShard => (filter_names.map (fun fn =>
          s.ap_dust_total.getD (s.filters.indexOf fn) [])).getD f [])
        (sortShardsByName shard_group)
        (fun s hs => (hrow_len_ap s (hmem s hs) f hf).symm)
      rw [hz]
      congr 1
      apply List.map_congr_left
      intro s hs
      dsimp only
      rw [getD_map_of_lt _ _ hf]
    · rw [getD_map_of_lt _ _ (by simpa using hf), List.get_range]
      have hz := zip_join_eq_map (fun s : SEDShard => s.galaxy_sky_ids)
        (fun s : SEDShard => (filter_names.map (fun fn =>
          s.ab_dust_total.getD (s.filters.indexOf fn) [])).getD f [])
        (sortShardsByName shard_group)
        (fun s hs => (hrow_len_ab s (hmem s hs) f hf).symm)
      rw [hz]
      congr 1
      apply List.map_congr_left
      intro s hs
      dsimp only
      rw [getD_map_of_lt _ _ hf]

/-- C2 witness: the alignment theorem applied to the concrete two-shard
fixture with filter batch `["u", "g"]`. -/
theorem get_mag_data_aligned_witness :
    ([fixtureShardA, fixtureShardB] : List SEDShard) ≠ [] ∧
    (["u", "g"] : List String) ≠ [] ∧
    (∀ s ∈ [fixtureShardA, fixtureShardB], s.ap_dust_total.length = s.filters.length) ∧
    (∀ s ∈ [fixtureShardA, fixtureShardB], s.ab_dust_total.length = s.filters.length) ∧
    (∀ s ∈ [fixtureShardA, fixtureShardB],
        ∀ r ∈ s.ap_dust_total, r.length = s.galaxy_sky_ids.length) ∧
    (∀ s ∈ [fixtureShardA, fixtureShardB],
        ∀ r ∈ s.ab_dust_total, r.length = s.galaxy_sky_ids.length) ∧
    (∀ s ∈ [fixtureShardA, fixtureShardB], ∀ fn ∈ ["u", "g"], fn ∈ s.filters) ∧
    (∃ ids ap ab,
      get_mag_data [fixtureShardA, fixtureShardB] ["u", "g"] = .ok (ids, ap, ab) ∧
      ids.length = ((sortShardsByName [fixtureShardA, fixtureShardB]).map
          (fun s => s.galaxy_sky_ids.length)).sum ∧
      ap.length = (["u", "g"] : List String).length ∧
      ab.length = (["u", "g"] : List String).length ∧
      (∀ row ∈ ap, row.length = ids.length) ∧
      (∀ row ∈ ab, row.length = ids.length) ∧
      (∀ f, (hf : f < (["u", "g"] : List String).length) →
        ids.zip (ap.getD f []) = ((sortShardsByName [fixtureShardA, fixtureShardB]).map
            (fun s => s.galaxy_sky_ids.zip
              (s.ap_dust_total.getD
                (s.filters.indexOf ((["u", "g"] : List String).get ⟨f, hf⟩)) []))).join ∧
        ids.zip (ab.getD f []) = ((sortShardsByName [fixtureShardA, fixtureShardB]).map
            (fun s => s.galaxy_sky_ids.zip
              (s.ab_dust_total.getD
                (s.filters.indexOf ((["u", "g"] : List String).get ⟨f, hf⟩)) []))).join)) :=
  ⟨by decide, by decide, by decide, by decide, by decide, by decide, by decide,
    get_mag_data_aligned [fixtureShardA, fixtureShardB] ["u", "g"]
      (by decide) (by decide) (by decide) (by decide) (by decide) (by decide) (by decide)⟩

/-! ### C10: empty shard intersection -/

/-- C10: a shard whose id column does not meet the requested id set yields the
distinguished no-data value `none` rather than crashing on an empty-array
access, and `make_mock_catalog` skips such shards: running the accumulation
loop with the shard prepended gives exactly the same chunks as without it. -/
theorem get_h5_group_properties_empty_overlap_skipped
    (f : String → List Int) (rest : List (String → List Int)) (keys : List String)
    (idlist : List Int)
    (h : overlapIds idlist (f "id_galaxy_sky") = []) :
    get_h5_group_properties f keys (some idlist) (some "id_galaxy_sky") = .ok none ∧
    make_mock_catalog_galaxy_chunks (f :: rest) keys (some idlist)
      = make_mock_catalog_galaxy_chunks rest keys (some idlist) := by
  have hget : get_h5_group_properties f keys (some idlist) (some "id_galaxy_sky")
      = .ok none := by
    simp [get_h5_group_properties, h]
  refine ⟨hget, ?_⟩
  unfold make_mock_catalog_galaxy_chunks
  rcases hm : (mapMExcept (fun g =>
      get_h5_group_properties g keys (some idlist) (some "id_galaxy_sky")) rest)
    with e | ds <;>
    simp [mapMExcept, hget, hm]

/-- C10 witness: a concrete shard with empty intersection is skipped. -/
theorem get_h5_group_properties_empty_overlap_skipped_witness :
    overlapIds [7, 8] ((fun k => if k = "id_galaxy_sky" then [1, 2, 3] else [4, 5, 6]) "id_galaxy_sky") = [] ∧
    (get_h5_group_properties (fun k => if k = "id_galaxy_sky" then [1, 2, 3] else [4, 5, 6])
        ["id_galaxy_sky", "ra"] (some [7, 8]) (some "id_galaxy_sky") = .ok none ∧
     make_mock_catalog_galaxy_chunks
        [(fun k => if k = "id_galaxy_sky" then [1, 2, 3] else [4, 5, 6])]
        ["id_galaxy_sky", "ra"] (some [7, 8])
       = make_mock_catalog_galaxy_chunks [] ["id_galaxy_sky", "ra"] (some [7, 8])) :=
  ⟨by decide,
    get_h5_group_properties_empty_overlap_skipped _ _ _ _ (by decide)⟩

/-! ### C4: sentinel-id rows in `write_to_ascii` -/

/-- C4 counterexample: the claim says rows whose id is zero after an unsafe
integer cast of NaN are excluded and that the drop count is reported; the
code only tests `np.isnan(_id)`, so a row whose id is the float `0.0` is kept
in the output. -/
theorem write_to_ascii_keeps_zero_id :
    write_to_ascii_rows [FVal.val 0] [[FVal.val 5]] = [(FVal.val 0, [FVal.val 5])] := by
  decide

/-- C4 amended: rows whose id is NaN are excluded (zero ids are kept and no
drop count is produced), and the output row count equals the input row count
minus the number of NaN-id rows — in particular it never exceeds the input
row count. -/
theorem write_to_ascii_rows_drop_nan (galaxy_ids : List FVal)
    (mag_columns : List (List FVal)) (hne : mag_columns ≠ [])
    (hlen : ∀ col ∈ mag_columns, col.length = galaxy_ids.length) :
    (write_to_ascii_rows galaxy_ids mag_columns).length
        = galaxy_ids.length - (galaxy_ids.filter (fun v => v.isnan)).length ∧
    (write_to_ascii_rows galaxy_ids mag_columns).length ≤ galaxy_ids.length ∧
    ∀ p ∈ write_to_ascii_rows galaxy_ids mag_columns, p.1.isnan = false := by
  have hhead : (mag_columns.head?.getD []).length = galaxy_ids.length := by
    cases mag_columns with
    | nil => exact absurd rfl hne
    | cons c cs => exact hlen c (List.mem_cons_self c cs)
  have hzlen : galaxy_ids.length
      = ((List.range (mag_columns.headD []).length).map
          (fun i => mag_columns.map (fun col => col.getD i .nan))).length := by
    simp [hhead]
  have hmain : (write_to_ascii_rows galaxy_ids mag_columns).length
      = (galaxy_ids.filter (fun v => !v.isnan)).length := by
    unfold write_to_ascii_rows
    exact length_filter_zip_fst (fun v => !v.isnan) galaxy_ids _ hzlen
  refine ⟨?_, ?_, ?_⟩
  · rw [hmain, length_filter_not_eq_sub]
  · rw [hmain, length_filter_not_eq_sub]
    omega
  · intro p hp
    unfold write_to_ascii_rows at hp
    have := (List.mem_filter.mp hp).2
    simpa using this

/-- C4 witness: the amended theorem applied at a concrete input with one NaN
id among three rows. -/
theorem write_to_ascii_rows_drop_nan_witness :
    ([[FVal.val 10, FVal.val 20, FVal.val 30]] : List (List FVal)) ≠ [] ∧
    (∀ col ∈ ([[FVal.val 10, FVal.val 20, FVal.val 30]] : List (List FVal)),
        col.length = ([FVal.val 1, FVal.nan, FVal.val 3] : List FVal).length) ∧
    ((write_to_ascii_rows [FVal.val 1, FVal.nan, FVal.val 3]
          [[FVal.val 10, FVal.val 20, FVal.val 30]]).length
        = ([FVal.val 1, FVal.nan, FVal.val 3] : List FVal).length
          - (([FVal.val 1, FVal.nan, FVal.val 3] : List FVal).filter
              (fun v => v.isnan)).length ∧
     (write_to_ascii_rows [FVal.val 1, FVal.nan, FVal.val 3]
          [[FVal.val 10, FVal.val 20, FVal.val 30]]).length
        ≤ ([FVal.val 1, FVal.nan, FVal.val 3] : List FVal).length ∧
     ∀ p ∈ write_to_ascii_rows [FVal.val 1, FVal.nan, FVal.val 3]
          [[FVal.val 10, FVal.val 20, FVal.val 30]], p.1.isnan = false) :=
  ⟨by decide, by decide,
    write_to_ascii_rows_drop_nan _ _ (by decide) (by decide)⟩

/-! ### C6: row order of id-selected property extraction -/

theorem mem_overlapIds {ids localIds : List Int} {v : Int} :
    v ∈ overlapIds ids localIds ↔ v ∈ ids ∧ v ∈ localIds := by
  unfold overlapIds
  rw [(List.perm_insertionSort _ _).mem_iff]
  simp [List.mem_dedup, List.mem_filter]

/-- C6: with requested ids intersecting the shard's id column,
`get_h5_group_properties` selects rows in the order `np.intersect1d` produces:
ascending id value over the (deduplicated) intersection.  Consequently the
output column at the id key equals the sorted intersection, and the selection
depends on the shard's id column only through membership — reordering the ids
inside the shard file leaves the selected id sequence unchanged. -/
theorem get_h5_group_properties_sorted_by_id (h5_group : String → List Int)
    (keys : List String) (idlist : List Int) (idcol : String)
    (hne : overlapIds idlist (h5_group idcol) ≠ []) :
    get_h5_group_properties h5_group keys (some idlist) (some idcol)
        = .ok (some (keys.map (fun key => (overlapIds idlist (h5_group idcol)).map
            (fun v => (h5_group key).getD ((h5_group idcol).indexOf v) 0)))) ∧
    (∀ i, (hi : i < keys.length) → keys.get ⟨i, hi⟩ = idcol →
        (keys.map (fun key => (overlapIds idlist (h5_group idcol)).map
            (fun v => (h5_group key).getD ((h5_group idcol).indexOf v) 0))).getD i []
          = overlapIds idlist (h5_group idcol)) ∧
    (overlapIds idlist (h5_group idcol)).Sorted (fun a b => a ≤ b) ∧
    (overlapIds idlist (h5_group idcol)).Nodup ∧
    (∀ localIds2 : List Int, (∀ x, x ∈ localIds2 ↔ x ∈ h5_group idcol) →
        overlapIds idlist localIds2 = overlapIds idlist (h5_group idcol)) := by
  refine ⟨?_, ?_, ?_, ?_, ?_⟩
  · unfold get_h5_group_properties
    dsimp only
    rw [if_neg (by
      rw [List.length_map]
      exact fun h => hne (List.length_eq_zero.mp h))]
    simp [List.map_map, Function.comp]
  · intro i hi hkey
    rw [getD_map_of_lt _ _ hi, hkey]
    rw [List.map_congr_left (fun v hv =>
      getD_indexOf (h5_group idcol) v (mem_overlapIds.mp hv).2 0)]
    exact List.map_id _
  · exact List.sorted_insertionSort _ _
  · exact ((List.perm_insertionSort _ _).nodup_iff).mpr (List.nodup_dedup _)
  · intro localIds2 hmem
    unfold overlapIds
    have hfe : idlist.filter (fun v => decide (v ∈ localIds2))
        = idlist.filter (fun v => decide (v ∈ h5_group idcol)) :=
      List.filter_congr (fun a _ => by simp [hmem])
    rw [hfe]

/-- C6 witness: a shard whose id column is stored in the order `[30, 10, 20]`
and a request for `[20, 40, 10]` select the rows with ids `[10, 20]` — the
sorted intersection, not the shard's native row order. -/
theorem get_h5_group_properties_sorted_by_id_witness :
    overlapIds [20, 40, 10]
        ((fun k => if k = "id_galaxy_sky" then [30, 10, 20] else [7, 8, 9]) "id_galaxy_sky")
      ≠ [] ∧
    (get_h5_group_properties
        (fun k => if k = "id_galaxy_sky" then [30, 10, 20] else [7, 8, 9])
        ["id_galaxy_sky", "ra"] (some [20, 40, 10]) (some "id_galaxy_sky")
        = .ok (some (
            (["id_galaxy_sky", "ra"] : List String).map (fun key =>
              (overlapIds [20, 40, 10]
                ((fun k => if k = "id_galaxy_sky" then [30, 10, 20] else [7, 8, 9])
                  "id_galaxy_sky")).map
                (fun v =>
                  ((fun k => if k = "id_galaxy_sky" then [30, 10, 20] else [7, 8, 9]) key).getD
                    (((fun k => if k = "id_galaxy_sky" then [30, 10, 20] else [7, 8, 9])
                        "id_galaxy_sky").indexOf v) 0)))) ∧
     (∀ i, (hi : i < (["id_galaxy_sky", "ra"] : List String).length) →
        (["id_galaxy_sky", "ra"] : List String).get ⟨i, hi⟩ = "id_galaxy_sky" →
        ((["id_galaxy_sky", "ra"] : List String).map (fun key =>
              (overlapIds [20, 40, 10]
                ((fun k => if k = "id_galaxy_sky" then [30, 10, 20] else [7, 8, 9])
                  "id_galaxy_sky")).map
                (fun v =>
                  ((fun k => if k = "id_galaxy_sky" then [30, 10, 20] else [7, 8, 9]) key).getD
                    (((fun k => if k = "id_galaxy_sky" then [30, 10, 20] else [7, 8, 9])
                        "id_galaxy_sky").indexOf v) 0))).getD i []
          = overlapIds [20, 40, 10]
              ((fun k => if k = "id_galaxy_sky" then [30, 10, 20] else [7, 8, 9])
                "id_galaxy_sky")) ∧
     (overlapIds [20, 40, 10]
        ((fun k => if k = "id_galaxy_sky" then [30, 10, 20] else [7, 8, 9])
          "id_galaxy_sky")).Sorted (fun a b => a ≤ b) ∧
     (overlapIds [20, 40, 10]
        ((fun k => if k = "id_galaxy_sky" then [30, 10, 20] else [7, 8, 9])
          "id_galaxy_sky")).Nodup ∧
     (∀ localIds2 : List Int,
        (∀ x, x ∈ localIds2 ↔
          x ∈ (fun k => if k = "id_galaxy_sky" then [30, 10, 20] else [7, 8, 9])
                "id_galaxy_sky") →
        overlapIds [20, 40, 10] localIds2
          = overlapIds [20, 40, 10]
              ((fun k => if k = "id_galaxy_sky" then [30, 10, 20] else [7, 8, 9])
                "id_galaxy_sky"))) :=
  ⟨by decide,
    get_h5_group_properties_sorted_by_id
      (fun k => if k = "id_galaxy_sky" then [30, 10, 20] else [7, 8, 9])
      ["id_galaxy_sky", "ra"] [20, 40, 10] "id_galaxy_sky" (by decide)⟩

/-! ### C7: strict threshold selection -/

/-- C7: with a valid header whose columns contain the requested filter,
`ids_less_than_mag` returns exactly the (integer-cast) ids of the rows whose
value in the filter column is strictly below the threshold, in row order;
rows whose value equals the threshold are excluded because the comparison is
strict. -/
theorem ids_less_than_mag_strict (sed_file : CatalogFile) (filter_name : String)
    (mag_limit : ℚ) (hhd : sed_file.header.headD "" = "ID")
    (hmem : filter_name ∈ sed_file.header) :
    ids_less_than_mag sed_file filter_name mag_limit
      = .ok ((sed_file.rows.filter
            (fun r => r.getD (sed_file.header.indexOf filter_name) 0 < mag_limit)).map
          (fun r => pyIntCast (r.getD 0 0))) := by
  unfold ids_less_than_mag read_header
  rw [if_pos hhd]
  simp only [bind, Except.bind]
  rw [if_neg (by simpa using hmem)]
  rw [List.zip_map']
  rw [List.filter_map, List.map_map]
  rfl

/-- C7 witness: the spec scenario — magnitudes `[24.9, 25.1, 25.0]` against
threshold `25.0` select exactly the id at row index 0 (the value equal to the
threshold is excluded). -/
theorem ids_less_than_mag_strict_witness :
    (⟨["ID", "F_ap"], [[1, mkRat 249 10], [2, mkRat 251 10], [3, 25]]⟩
        : CatalogFile).header.headD "" = "ID" ∧
    "F_ap" ∈ (⟨["ID", "F_ap"], [[1, mkRat 249 10], [2, mkRat 251 10], [3, 25]]⟩
        : CatalogFile).header ∧
    ids_less_than_mag
        ⟨["ID", "F_ap"], [[1, mkRat 249 10], [2, mkRat 251 10], [3, 25]]⟩ "F_ap" 25
      = .ok [1] := by
  refine ⟨by decide, by decide, ?_⟩
  rw [ids_less_than_mag_strict
      ⟨["ID", "F_ap"], [[1, mkRat 249 10], [2, mkRat 251 10], [3, 25]]⟩
      "F_ap" 25 (by decide) (by decide)]
  decide

end MockWrangling
